import Mathlib

/-!
Shallow embedding of the PISA watchtower core (watcher, multi-responder,
gas queue, transaction tracker, dedicated responder retry loop), together
with theorems checking the specification claims against it.

Sources embedded:
- `src/watcher/watcher.ts` (reducer-driven Watcher);
- `src/responder.ts` (EthereumDedicatedResponder retry loop);
- the MultiResponder / TransactionTracker module (txMined, startResponse,
  checkTxs).
The gas queue module (`gasQueue.ts`) and the component framework
(`blockMonitor/component.ts`) are not part of the sources; their
operations are modelled from the specification and marked as such.
-/

namespace Pisa

/-- Semantic transaction identity, `PisaTransactionIdentifier` in the source:
`(chainId, data, to, value, gasLimit)`. -/
structure PisaTransactionIdentifier where
  chainId : Nat
  data : String
  toAddr : String
  value : Nat
  gasLimit : Nat
deriving DecidableEq, Repr

/-- Modelled from the spec: `PisaTransactionIdentifier.equals` lives in the
missing `gasQueue.ts`; per the glossary a TxId is the tuple
`(chainId, to, value, gasLimit, data)`, so equality is componentwise. -/
def PisaTransactionIdentifier.equals (a b : PisaTransactionIdentifier) : Bool :=
  a.chainId == b.chainId && a.data == b.data && a.toAddr == b.toAddr &&
    a.value == b.value && a.gasLimit == b.gasLimit

theorem PisaTransactionIdentifier.equals_iff (a b : PisaTransactionIdentifier) :
    a.equals b = true ↔ a = b := by
  cases a; cases b
  simp [PisaTransactionIdentifier.equals, and_assoc]

/-- `GasQueueItemRequest`: a response request keyed by its TxId and ideal gas
price (the response data itself plays no role in the queue logic). -/
structure GasQueueItemRequest where
  identifier : PisaTransactionIdentifier
  idealGas : Nat
deriving DecidableEq, Repr

/-- `GasQueueItem`: a request together with its assigned nonce and the gas
price it is currently broadcast at. -/
structure GasQueueItem where
  request : GasQueueItemRequest
  nonce : Nat
  currentGas : Nat
deriving DecidableEq, Repr

/-- The gas queue state: ordered items plus the construction parameters
`(initialNonce, replacementRate, maxQueueDepth)` of `new GasQueue`. -/
structure GasQueue where
  queueItems : List GasQueueItem
  initialNonce : Nat
  replacementRate : Nat
  maxQueueDepth : Nat
deriving DecidableEq, Repr

/-- Modelled from the spec: `depthReached` of the missing `gasQueue.ts` is
`length ≥ maxQueueDepth`. -/
def GasQueue.depthReached (q : GasQueue) : Bool :=
  q.queueItems.length ≥ q.maxQueueDepth

/-- Modelled from the spec: `contains(id)` of the missing `gasQueue.ts` is an
exact-TxId membership test. -/
def GasQueue.contains (q : GasQueue) (id : PisaTransactionIdentifier) : Bool :=
  q.queueItems.any (fun i => i.request.identifier.equals id)

/-- Modelled from the spec: `dequeue` of the missing `gasQueue.ts` removes the
front (lowest-nonce) item. -/
def GasQueue.dequeue (q : GasQueue) : GasQueue :=
  { q with queueItems := q.queueItems.tail }

/-- Modelled from the spec: `consume(id)` of the missing `gasQueue.ts` removes
the item with TxId `id` from its position `k` and shifts the items before it
by one nonce, so that the front of the current queue is never re-mined at the
nonce just consumed. -/
def GasQueue.consume (q : GasQueue) (id : PisaTransactionIdentifier) : GasQueue :=
  let k := q.queueItems.findIdx (fun i => i.request.identifier.equals id)
  { q with
    queueItems :=
      ((q.queueItems.take k).map (fun i => { i with nonce := i.nonce + 1 })) ++
        q.queueItems.drop (k + 1) }

/-- Modelled from the spec: `difference(prev)` of the missing `gasQueue.ts`
returns the items of this queue whose `(identifier, nonce, currentGas)` do not
appear in `prev` — the items that must be (re-)broadcast. -/
def GasQueue.difference (q prev : GasQueue) : List GasQueueItem :=
  q.queueItems.filter (fun i =>
    !(prev.queueItems.any (fun j =>
      j.request.identifier.equals i.request.identifier &&
        j.nonce == i.nonce && j.currentGas == i.currentGas)))

/-- Replacement-rate bump: ceiling of `gas * (100 + rate) / 100`. -/
def ceilRate (gas rate : Nat) : Nat := (gas * (100 + rate) + 99) / 100

/-- Modelled from the spec: in `add`, every item displaced to a higher index
gets its gas raised to at least the predecessor gas times the replacement
rate. -/
def bumpDisplaced (rate : Nat) : Nat → List GasQueueItem → List GasQueueItem
  | _, [] => []
  | predGas, i :: rest =>
    let g := max i.currentGas (ceilRate predGas rate)
    { i with currentGas := g } :: bumpDisplaced rate g rest

/-- Re-stamp the nonce column by position starting from `base`. -/
def restampNonces (base : Nat) (items : List GasQueueItem) : List GasQueueItem :=
  items.enum.map (fun p => { p.2 with nonce := base + p.1 })

/-- Modelled from the spec: `add(req)` of the missing `gasQueue.ts` inserts at
the position dictated by the ideal gas price (items sorted by descending
`currentGas`), bumps the gas of displaced items by the replacement rate, and
re-stamps nonces by position. -/
def GasQueue.add (q : GasQueue) (req : GasQueueItemRequest) : GasQueue :=
  let base :=
    match q.queueItems with
    | [] => q.initialNonce
    | i :: _ => i.nonce
  let k := q.queueItems.findIdx (fun i => i.currentGas < req.idealGas)
  let newItem : GasQueueItem := ⟨req, 0, req.idealGas⟩
  let items :=
    q.queueItems.take k ++
      newItem :: bumpDisplaced q.replacementRate req.idealGas (q.queueItems.drop k)
  { q with queueItems := restampNonces base items }

/-- `EthereumResponder.GAS_LIMIT` from `responder.ts`. -/
def EthereumResponder.GAS_LIMIT : Nat := 200000

/-- Result of one `MultiResponder.txMined` call: the queue afterwards, the
items broadcast, and the logged error message of a caught
`QueueConsistencyError` if one was thrown. -/
structure TxMinedResult where
  queue : GasQueue
  broadcasts : List GasQueueItem
  loggedError : Option String
deriving DecidableEq, Repr

/-- `MultiResponder.txMined(txIdentifier, nonce)` from the source: checks in
order that the queue is non-empty, that it contains the identifier, and that
the front nonce matches; then either dequeues (front TxId mined) or consumes
and re-broadcasts the difference. Thrown `QueueConsistencyError`s are caught
and logged. -/
def MultiResponder.txMined (queue : GasQueue) (txIdentifier : PisaTransactionIdentifier)
    (nonce : Nat) : TxMinedResult :=
  match queue.queueItems with
  | [] => ⟨queue, [], some "Transaction mined for empty queue."⟩
  | frontItem :: _ =>
    if !(queue.contains txIdentifier) then
      ⟨queue, [], some "Transaction identifier not found in queue."⟩
    else if frontItem.nonce != nonce then
      ⟨queue, [], some "Front of queue nonce does not correspond to nonce."⟩
    else if txIdentifier.equals frontItem.request.identifier then
      ⟨queue.dequeue, [], none⟩
    else
      let reducedQueue := queue.consume txIdentifier
      ⟨reducedQueue, reducedQueue.difference queue, none⟩

/-- Result of one `MultiResponder.startResponse` call: the queue afterwards,
the items broadcast through the signer, the TxIds registered with the
transaction tracker, and the logged message of a caught error. -/
structure StartResponseResult where
  queue : GasQueue
  broadcasts : List GasQueueItem
  trackerRegistrations : List PisaTransactionIdentifier
  loggedError : Option String
deriving DecidableEq, Repr

/-- `MultiResponder.startResponse` from the source (after `setup`): throws when
the queue depth is reached (caught and logged), otherwise builds the TxId for
the encoded response data, adds it to the queue and broadcasts the difference,
registering each broadcast item with the tracker. -/
def MultiResponder.startResponse (queue : GasQueue) (chainId : Nat) (data : String)
    (contractAddress : String) (idealGas : Nat) : StartResponseResult :=
  if queue.depthReached then
    ⟨queue, [], [], some "Cannot add to queue. Max queue depth reached."⟩
  else
    let txIdentifier : PisaTransactionIdentifier :=
      ⟨chainId, data, contractAddress, 0, EthereumResponder.GAS_LIMIT⟩
    let request : GasQueueItemRequest := ⟨txIdentifier, idealGas⟩
    let replacedQueue := queue.add request
    let replacedTransactions := replacedQueue.difference queue
    ⟨replacedQueue, replacedTransactions,
      replacedTransactions.map (fun i => i.request.identifier), none⟩

/-- An event log: emitting contract address and topic list. -/
structure Log where
  address : String
  topics : List String
deriving DecidableEq, Repr

/-- An ethers `EventFilter` as used by the watcher: a contract address and a
list of provided topic positions, where `none` models a `null` entry. -/
structure EventFilter where
  address : String
  topics : List (Option String)
deriving DecidableEq, Repr

/-- A transaction of a block, as consumed by the responder and the tracker:
`toAddr = none` models a contract-creation transaction with no `to` field. -/
structure Transaction where
  toAddr : Option String
  data : String
  value : Nat
  gasLimit : Nat
  chainId : Nat
  nonce : Nat
deriving DecidableEq, Repr

/-- A block: number, hash, parent hash, transactions and event logs. -/
structure Block where
  number : Nat
  hash : String
  parentHash : String
  transactions : List Transaction
  logs : List Log
deriving DecidableEq, Repr

/-- JavaScript strict equality between a log topic lookup (`undefined` when the
index is out of range) and a filter topic entry (`null` when not constrained):
`undefined` and `null` are distinct values and both differ from every string,
so the comparison succeeds only on two equal strings. -/
def jsTopicEq (logTopic filterTopic : Option String) : Bool :=
  match logTopic, filterTopic with
  | some l, some f => l == f
  | _, _ => false

/-- `hasLogMatchingEvent(block, filter)` from `watcher.ts`: some log whose
address equals the filter address and such that
`filter.topics.every((topic, idx) => log.topics[idx] === topic)`. -/
def hasLogMatchingEvent (block : Block) (filter : EventFilter) : Bool :=
  block.logs.any (fun log =>
    log.address == filter.address &&
      filter.topics.enum.all (fun p => jsTopicEq (log.topics.get? p.1) p.2))

/-- The log-match predicate as the specification words it: address equality,
and at each provided topic position either the filter entry is `None` (a
wildcard) or it equals the log topic at that position. Stated for comparison
with `hasLogMatchingEvent`, which is the code. -/
def specLogMatch (block : Block) (filter : EventFilter) : Bool :=
  block.logs.any (fun log =>
    log.address == filter.address &&
      filter.topics.enum.all (fun p =>
        match p.2 with
        | none => true
        | some t => log.topics.get? p.1 == some t))

/-- The per-appointment watcher anchor state. -/
inductive WatcherAppointmentState where
  | watching
  | observed (blockObserved : Nat)
deriving DecidableEq, Repr

/-- `AppointmentStateReducer.reduce` from `watcher.ts`: a WATCHING state moves
to OBSERVED at the block number of a block holding a matching log; every other
case returns the previous state unchanged. -/
def AppointmentStateReducer.reduce (filter : EventFilter)
    (prevState : WatcherAppointmentState) (block : Block) : WatcherAppointmentState :=
  match prevState with
  | .watching =>
    if hasLogMatchingEvent block filter then .observed block.number else .watching
  | .observed n => .observed n

/-- `shouldHaveStartedResponder` from `Watcher.getActions`: false for a missing
state, otherwise OBSERVED with
`block.number - blockObserved + 1 >= confirmationsBeforeResponse` (computed on
integers, as in the source). -/
def shouldHaveStartedResponder (confirmationsBeforeResponse : Nat)
    (st : Option WatcherAppointmentState) (block : Block) : Bool :=
  match st with
  | none => false
  | some .watching => false
  | some (.observed blockObserved) =>
    (block.number : Int) - blockObserved + 1 ≥ confirmationsBeforeResponse

/-- `shouldRemoveAppointment` from `Watcher.getActions`. -/
def shouldRemoveAppointment (confirmationsBeforeRemoval : Nat)
    (st : Option WatcherAppointmentState) (block : Block) : Bool :=
  match st with
  | none => false
  | some .watching => false
  | some (.observed blockObserved) =>
    (block.number : Int) - blockObserved + 1 ≥ confirmationsBeforeRemoval

/-- Modelled from the spec: the component framework
(`blockMonitor/component.ts`) is not among the sources; per §4.3 it invokes a
component action on an edge transition only, i.e. exactly when the condition
holds at the new head state and did not hold at the previous head. -/
def actionFires (condition : Option WatcherAppointmentState → Block → Bool)
    (prevState : Option WatcherAppointmentState) (prevHead : Block)
    (newState : Option WatcherAppointmentState) (head : Block) : Bool :=
  condition newState head && !(condition prevState prevHead)

/-- The respond edge of the watcher, obtained by instantiating the framework
edge dispatch with `shouldHaveStartedResponder`. -/
def respondFires (confirmationsBeforeResponse : Nat)
    (prevState : Option WatcherAppointmentState) (prevHead : Block)
    (newState : Option WatcherAppointmentState) (head : Block) : Bool :=
  actionFires (shouldHaveStartedResponder confirmationsBeforeResponse)
    prevState prevHead newState head

/-- The respond action of `Watcher.getActions`: `responder.respond` is awaited
inside try/catch, so an exception from it is converted into error log lines
and the action itself always completes "ok". The argument is the outcome of
the `respond` call. -/
def respondAction (respondResult : Except String Unit) : Except String (List String) :=
  match respondResult with
  | .ok _ => .ok ["Observed event."]
  | .error doh =>
    .ok ["An unexpected error occured whilst responding to event.", doh]

/-- The reducer-driven `Watcher` constructor from `watcher.ts`: throws an
`ArgumentError` (the `error` case) when
`confirmationsBeforeResponse > confirmationsBeforeRemoval`, and otherwise
yields a watcher configured with the two parameters. -/
def Watcher.constructorCheck (confirmationsBeforeResponse confirmationsBeforeRemoval : Nat) :
    Except String (Nat × Nat) :=
  if confirmationsBeforeResponse > confirmationsBeforeRemoval then
    .error "confirmationsBeforeResponse must be less than or equal to confirmationsBeforeRemoval."
  else
    .ok (confirmationsBeforeResponse, confirmationsBeforeRemoval)

/-- `blockCache.getBlockStub(hash)`: lookup by block hash. -/
def getBlockStub (cache : List Block) (hash : String) : Option Block :=
  cache.find? (fun b => b.hash == hash)

/-- One transaction step of `TransactionTracker.checkTxs`: for a transaction
with a populated `to` field, every registered callback key equal to the
transaction TxId is removed from the callback map and invoked with the
observed nonce. Returns the remaining callbacks and the invocations made. -/
def checkTxsBlock :
    List PisaTransactionIdentifier → List Transaction →
      List PisaTransactionIdentifier × List (PisaTransactionIdentifier × Nat)
  | cbs, [] => (cbs, [])
  | cbs, tx :: rest =>
    match tx.toAddr with
    | none => checkTxsBlock cbs rest
    | some toAddr =>
      let txIdentifier : PisaTransactionIdentifier :=
        ⟨tx.chainId, tx.data, toAddr, tx.value, tx.gasLimit⟩
      let invoked :=
        (cbs.filter (fun k => k.equals txIdentifier)).map
          (fun _ => (txIdentifier, tx.nonce))
      let remaining := cbs.filter (fun k => !(k.equals txIdentifier))
      let r := checkTxsBlock remaining rest
      (r.1, invoked ++ r.2)

/-- The block walk of `TransactionTracker.checkTxs`: the index counts down from
the head number to `lastBlockNumber + 1` while the visited block follows the
`parentHash` chain; a missing block stub makes the remaining iterations
no-ops (the source `continue` never re-assigns the stub). -/
def checkTxsLoop (cache : List Block) :
    Nat → Option Block → List PisaTransactionIdentifier →
      List (PisaTransactionIdentifier × Nat) →
      List PisaTransactionIdentifier × List (PisaTransactionIdentifier × Nat)
  | 0, _, cbs, acc => (cbs, acc)
  | fuel + 1, none, cbs, acc => checkTxsLoop cache fuel none cbs acc
  | fuel + 1, some b, cbs, acc =>
    let r := checkTxsBlock cbs b.transactions
    checkTxsLoop cache fuel (getBlockStub cache b.parentHash) r.1 (acc ++ r.2)

/-- State and output of one `TransactionTracker.checkTxs` call: remaining
callbacks, the invocations made in order, and the updated `lastBlockNumber`. -/
structure CheckTxsResult where
  callbacks : List PisaTransactionIdentifier
  invocations : List (PisaTransactionIdentifier × Nat)
  lastBlockNumber : Nat
deriving DecidableEq, Repr

/-- `TransactionTracker.checkTxs(blockNumber, blockHash)` from the source:
walks `blockNumber - lastBlockNumber` blocks starting at the head stub and
descending through parent hashes, firing and removing matching callbacks, then
sets `lastBlockNumber` to the head number. -/
def TransactionTracker.checkTxs (cache : List Block)
    (callbacks : List PisaTransactionIdentifier) (lastBlockNumber : Nat)
    (blockNumber : Nat) (blockHash : String) : CheckTxsResult :=
  let r := checkTxsLoop cache (blockNumber - lastBlockNumber)
    (getBlockStub cache blockHash) callbacks []
  ⟨r.1, r.2, blockNumber⟩

/-- A sequence of NEW_HEAD events delivered to the tracker, threading the
callback map and `lastBlockNumber`, and concatenating the invocations. -/
def TransactionTracker.run (cache : List Block)
    (callbacks : List PisaTransactionIdentifier) (lastBlockNumber : Nat) :
    List (Nat × String) → List PisaTransactionIdentifier × List (PisaTransactionIdentifier × Nat)
  | [] => (callbacks, [])
  | (bn, bh) :: rest =>
    let r := TransactionTracker.checkTxs cache callbacks lastBlockNumber bn bh
    let rs := TransactionTracker.run cache r.callbacks r.lastBlockNumber rest
    (rs.1, r.invocations ++ rs.2)

/-- Errors an attempt of the dedicated responder can reject with. -/
inductive AttemptError where
  | blockThresholdReached
  | noNewBlock
  | reorg
  | other (msg : String)
deriving DecidableEq, Repr

/-- `DoublingGasPolicy.getIncreasedGasPrice` from `responder.ts`. -/
def DoublingGasPolicy.getIncreasedGasPrice (previousPrice : Nat) : Nat :=
  previousPrice * 2

/-- The attempt loop of `EthereumDedicatedResponder.startResponse`:
`outcomes n` is the result of the `sendTransaction` of attempt `n` (`none` for
success). Fuel is the number of attempts still allowed; the gas price is
bumped by the policy exactly in the `BlockThresholdReachedError` branch of the
catch. Returns whether the response succeeded, the final gas price, and the
gas price used at each attempt in order. -/
def attemptLoop (bump : Nat → Nat) (outcomes : Nat → Option AttemptError) :
    Nat → Nat → Nat → Bool × Nat × List Nat
  | _, gasPrice, 0 => (false, gasPrice, [])
  | attemptsDone, gasPrice, fuel + 1 =>
    match outcomes attemptsDone with
    | none => (true, gasPrice, [gasPrice])
    | some e =>
      let newGas := if e = .blockThresholdReached then bump gasPrice else gasPrice
      let r := attemptLoop bump outcomes (attemptsDone + 1) newGas fuel
      (r.1, r.2.1, gasPrice :: r.2.2)

/-- `EthereumDedicatedResponder.startResponse` retry behaviour: start at
attempt 0 with the initial gas price and at most `maxAttempts` attempts. -/
def EthereumDedicatedResponder.startResponse (bump : Nat → Nat) (maxAttempts : Nat)
    (initialGasPrice : Nat) (outcomes : Nat → Option AttemptError) : Bool × Nat × List Nat :=
  attemptLoop bump outcomes 0 initialGasPrice maxAttempts

/-! ## Claim theorems -/

/-- C9: the reducer-driven Watcher constructor raises an ArgumentError if and
only if `confirmationsBeforeResponse > confirmationsBeforeRemoval`; when the
constructor succeeds, `confirmationsBeforeResponse ≤ confirmationsBeforeRemoval`
holds. -/
theorem watcher_constructor_argument_check (r m : Nat) :
    ((∃ e, Watcher.constructorCheck r m = .error e) ↔ r > m) ∧
    (∀ a b, Watcher.constructorCheck r m = .ok (a, b) → a ≤ b) := by
  unfold Watcher.constructorCheck
  by_cases h : r > m
  · simp [h]
  · simp only [h, if_false]
    constructor
    · simp [h]
    · intro a b hab
      have h1 : r = a ∧ m = b := by simpa using hab
      omega

theorem watcher_constructor_argument_check_witness :
    (1 : Nat) ≤ 2 ∧ ∃ e, Watcher.constructorCheck 3 2 = .error e :=
  ⟨(watcher_constructor_argument_check 1 2).2 1 2 rfl,
   (watcher_constructor_argument_check 3 2).1.mpr (by decide)⟩

/-- C3 counterexample: a filter with the single provided topic `None` (a
wildcard per the claim) and a log with a topic at that position and the right
address: the claim predicate matches, the code does not, because
`log.topics[0] === null` is false in JavaScript. -/
theorem logMatch_wildcard_counterexample :
    specLogMatch ⟨1, "h1", "h0", [], [⟨"a", ["t"]⟩]⟩ ⟨"a", [none]⟩ = true ∧
      hasLogMatchingEvent ⟨1, "h1", "h0", [], [⟨"a", ["t"]⟩]⟩ ⟨"a", [none]⟩ = false := by
  decide

theorem jsTopicEq_eq_true_iff (a b : Option String) :
    jsTopicEq a b = true ↔ ∃ t, a = some t ∧ b = some t := by
  cases a with
  | none => cases b <;> simp [jsTopicEq]
  | some l =>
    cases b with
    | none => simp [jsTopicEq]
    | some f =>
      simp only [jsTopicEq, beq_iff_eq, Option.some.injEq]
      constructor
      · intro h
        exact ⟨l, rfl, h.symm⟩
      · rintro ⟨t, h1, h2⟩
        exact h1.trans h2.symm

/-- C3 amended: the log match of the Watcher holds if and only if some log of
the block has the filter address and, at each provided topic position `i`, the
filter entry is a non-null topic equal to `log.topics[i]`; a `None` entry is
not a wildcard — it matches nothing. -/
theorem hasLogMatchingEvent_iff (block : Block) (filter : EventFilter) :
    hasLogMatchingEvent block filter = true ↔
      ∃ log ∈ block.logs, log.address = filter.address ∧
        ∀ i < filter.topics.length,
          ∃ t, filter.topics[i]? = some (some t) ∧ log.topics[i]? = some t := by
  simp only [hasLogMatchingEvent, List.any_eq_true, Bool.and_eq_true, beq_iff_eq,
    List.all_eq_true, List.forall_mem_enum]
  constructor
  · rintro ⟨log, hmem, haddr, htop⟩
    refine ⟨log, hmem, haddr, fun i hi => ?_⟩
    obtain ⟨t, h1, h2⟩ := (jsTopicEq_eq_true_iff _ _).mp (htop i hi)
    refine ⟨t, ?_, ?_⟩
    · rw [List.getElem?_eq_getElem hi, h2]
    · rw [← List.get?_eq_getElem?]
      exact h1
  · rintro ⟨log, hmem, haddr, hall⟩
    refine ⟨log, hmem, haddr, fun i hi => ?_⟩
    obtain ⟨t, h1, h2⟩ := hall i hi
    rw [jsTopicEq_eq_true_iff]
    refine ⟨t, ?_, ?_⟩
    · rw [List.get?_eq_getElem?]
      exact h2
    · rw [List.getElem?_eq_getElem hi] at h1
      exact Option.some.inj h1

/-- C5: the per-appointment reducer maps WATCHING to OBSERVED at the block
number of a block with a matching log, and is the identity in every other
case; once OBSERVED the state never changes, so along any linear chain an
OBSERVED state never returns to WATCHING. -/
theorem watcher_reduce_monotone (filter : EventFilter) (blk : Block) (n : Nat)
    (bs : List Block) :
    (hasLogMatchingEvent blk filter = true →
      AppointmentStateReducer.reduce filter .watching blk = .observed blk.number) ∧
    (hasLogMatchingEvent blk filter = false →
      AppointmentStateReducer.reduce filter .watching blk = .watching) ∧
    (AppointmentStateReducer.reduce filter (.observed n) blk = .observed n) ∧
    (bs.foldl (AppointmentStateReducer.reduce filter) (.observed n) = .observed n) := by
  refine ⟨?_, ?_, rfl, ?_⟩
  · intro h
    simp [AppointmentStateReducer.reduce, h]
  · intro h
    simp [AppointmentStateReducer.reduce, h]
  · induction bs with
    | nil => rfl
    | cons b rest ih => simpa [AppointmentStateReducer.reduce] using ih

theorem watcher_reduce_monotone_witness :
    AppointmentStateReducer.reduce ⟨"a", []⟩ .watching ⟨3, "h3", "h2", [], [⟨"a", []⟩]⟩ =
        .observed 3 ∧
      List.foldl (AppointmentStateReducer.reduce ⟨"a", []⟩) (.observed 7)
        [⟨4, "h4", "h3", [], []⟩] = .observed 7 :=
  ⟨(watcher_reduce_monotone ⟨"a", []⟩ ⟨3, "h3", "h2", [], [⟨"a", []⟩]⟩ 7 []).1 (by decide),
   (watcher_reduce_monotone ⟨"a", []⟩ ⟨3, "h3", "h2", [], [⟨"a", []⟩]⟩ 7
      [⟨4, "h4", "h3", [], []⟩]).2.2.2⟩

/-- C4: for an appointment whose new anchor state is OBSERVED, the respond
action fires exactly when the head satisfies
`head.number - blockObserved + 1 ≥ confirmationsBeforeResponse` and the
previous head did not already satisfy the condition; and the respond action
always completes normally, converting any exception of `responder.respond`
into log lines. -/
theorem watcher_respond_edge (conf : Nat) (prevSt : Option WatcherAppointmentState)
    (prevHead : Block) (b : Nat) (head : Block) :
    (respondFires conf prevSt prevHead (some (.observed b)) head = true ↔
      ((head.number : Int) - b + 1 ≥ conf ∧
        shouldHaveStartedResponder conf prevSt prevHead = false)) ∧
    (∀ r, ∃ logs, respondAction r = .ok logs) := by
  constructor
  · simp [respondFires, actionFires, shouldHaveStartedResponder]
  · intro r
    cases r with
    | ok u => exact ⟨_, rfl⟩
    | error e => exact ⟨_, rfl⟩

/-- C10: when the gas queue is at maximum depth, `startResponse` leaves the
queue unchanged, broadcasts nothing, registers nothing with the tracker, and
resolves normally with the raised error caught and logged. -/
theorem startResponse_depthReached_noop (queue : GasQueue) (chainId : Nat)
    (data contractAddress : String) (idealGas : Nat)
    (h : queue.depthReached = true) :
    MultiResponder.startResponse queue chainId data contractAddress idealGas =
      ⟨queue, [], [], some "Cannot add to queue. Max queue depth reached."⟩ := by
  simp [MultiResponder.startResponse, h]

theorem startResponse_depthReached_noop_witness :
    MultiResponder.startResponse ⟨[⟨⟨⟨1, "d", "a", 0, 200000⟩, 5⟩, 0, 5⟩], 0, 13, 1⟩
        1 "d2" "a2" 7 =
      ⟨⟨[⟨⟨⟨1, "d", "a", 0, 200000⟩, 5⟩, 0, 5⟩], 0, 13, 1⟩, [], [],
        some "Cannot add to queue. Max queue depth reached."⟩ :=
  startResponse_depthReached_noop ⟨[⟨⟨⟨1, "d", "a", 0, 200000⟩, 5⟩, 0, 5⟩], 0, 13, 1⟩
    1 "d2" "a2" 7 (by decide)

/-- C1: for a non-empty queue, when `txMined(id, nonce)` is called with `id`
contained in the queue and `nonce` equal to the front nonce: if `id` is the
front TxId the queue is dequeued and nothing is broadcast; otherwise the queue
becomes `consume(id)` and exactly the difference of the new queue from the old
one is broadcast. -/
theorem txMined_front_or_consume (queue : GasQueue) (id : PisaTransactionIdentifier)
    (nonce : Nat) (front : GasQueueItem) (rest : List GasQueueItem)
    (hq : queue.queueItems = front :: rest)
    (hc : queue.contains id = true)
    (hn : front.nonce = nonce) :
    (id = front.request.identifier →
      MultiResponder.txMined queue id nonce = ⟨queue.dequeue, [], none⟩) ∧
    (id ≠ front.request.identifier →
      MultiResponder.txMined queue id nonce =
        ⟨queue.consume id, (queue.consume id).difference queue, none⟩) := by
  constructor
  · intro hid
    have hbeq : id.equals front.request.identifier = true :=
      (PisaTransactionIdentifier.equals_iff _ _).mpr hid
    simp [MultiResponder.txMined, hq, hc, hn, hbeq]
  · intro hid
    have hbeq : id.equals front.request.identifier = false := by
      rw [Bool.eq_false_iff]
      intro hcon
      exact hid ((PisaTransactionIdentifier.equals_iff _ _).mp hcon)
    simp [MultiResponder.txMined, hq, hc, hn, hbeq]

theorem txMined_front_or_consume_witness :
    MultiResponder.txMined
        ⟨[⟨⟨⟨1, "dA", "a", 0, 200000⟩, 10⟩, 0, 10⟩, ⟨⟨⟨1, "dB", "b", 0, 200000⟩, 5⟩, 1, 5⟩],
          0, 13, 12⟩ ⟨1, "dA", "a", 0, 200000⟩ 0 =
      ⟨GasQueue.dequeue
          ⟨[⟨⟨⟨1, "dA", "a", 0, 200000⟩, 10⟩, 0, 10⟩, ⟨⟨⟨1, "dB", "b", 0, 200000⟩, 5⟩, 1, 5⟩],
            0, 13, 12⟩, [], none⟩ ∧
    MultiResponder.txMined
        ⟨[⟨⟨⟨1, "dA", "a", 0, 200000⟩, 10⟩, 0, 10⟩, ⟨⟨⟨1, "dB", "b", 0, 200000⟩, 5⟩, 1, 5⟩],
          0, 13, 12⟩ ⟨1, "dB", "b", 0, 200000⟩ 0 =
      ⟨GasQueue.consume
          ⟨[⟨⟨⟨1, "dA", "a", 0, 200000⟩, 10⟩, 0, 10⟩, ⟨⟨⟨1, "dB", "b", 0, 200000⟩, 5⟩, 1, 5⟩],
            0, 13, 12⟩ ⟨1, "dB", "b", 0, 200000⟩,
        GasQueue.difference
          (GasQueue.consume
            ⟨[⟨⟨⟨1, "dA", "a", 0, 200000⟩, 10⟩, 0, 10⟩, ⟨⟨⟨1, "dB", "b", 0, 200000⟩, 5⟩, 1, 5⟩],
              0, 13, 12⟩ ⟨1, "dB", "b", 0, 200000⟩)
          ⟨[⟨⟨⟨1, "dA", "a", 0, 200000⟩, 10⟩, 0, 10⟩, ⟨⟨⟨1, "dB", "b", 0, 200000⟩, 5⟩, 1, 5⟩],
            0, 13, 12⟩, none⟩ :=
  ⟨(txMined_front_or_consume _ ⟨1, "dA", "a", 0, 200000⟩ 0
      ⟨⟨⟨1, "dA", "a", 0, 200000⟩, 10⟩, 0, 10⟩ [⟨⟨⟨1, "dB", "b", 0, 200000⟩, 5⟩, 1, 5⟩]
      rfl (by decide) rfl).1 rfl,
   (txMined_front_or_consume _ ⟨1, "dB", "b", 0, 200000⟩ 0
      ⟨⟨⟨1, "dA", "a", 0, 200000⟩, 10⟩, 0, 10⟩ [⟨⟨⟨1, "dB", "b", 0, 200000⟩, 5⟩, 1, 5⟩]
      rfl (by decide) rfl).2 (by decide)⟩

/-- C2: `txMined` raises (and catches and logs) a QueueConsistencyError if and
only if the queue is empty, or the identifier is not contained in the queue,
or the front nonce differs from the observed nonce; in every such case the
queue is unchanged and nothing is broadcast. -/
theorem txMined_queue_consistency_error (queue : GasQueue)
    (id : PisaTransactionIdentifier) (nonce : Nat) :
    ((MultiResponder.txMined queue id nonce).loggedError ≠ none ↔
      (queue.queueItems = [] ∨ queue.contains id = false ∨
        ∃ front rest, queue.queueItems = front :: rest ∧ front.nonce ≠ nonce)) ∧
    ((MultiResponder.txMined queue id nonce).loggedError ≠ none →
      (MultiResponder.txMined queue id nonce).queue = queue ∧
        (MultiResponder.txMined queue id nonce).broadcasts = []) := by
  cases hq : queue.queueItems with
  | nil =>
    simp [MultiResponder.txMined, hq]
  | cons front rest =>
    by_cases hc : queue.contains id
    · by_cases hn : front.nonce = nonce
      · by_cases hid : id.equals front.request.identifier
        · simp [MultiResponder.txMined, hq, hc, hn, hid]
        · simp only [Bool.not_eq_true] at hid
          simp [MultiResponder.txMined, hq, hc, hn, hid]
      · simp [MultiResponder.txMined, hq, hc, hn]
    · simp only [Bool.not_eq_true] at hc
      simp [MultiResponder.txMined, hq, hc]

theorem txMined_queue_consistency_error_witness :
    (MultiResponder.txMined ⟨[], 4, 13, 12⟩ ⟨1, "dA", "a", 0, 200000⟩ 4).queue =
        ⟨[], 4, 13, 12⟩ ∧
      (MultiResponder.txMined ⟨[], 4, 13, 12⟩ ⟨1, "dA", "a", 0, 200000⟩ 4).broadcasts = [] :=
  (txMined_queue_consistency_error ⟨[], 4, 13, 12⟩ ⟨1, "dA", "a", 0, 200000⟩ 4).2 (by decide)

/-- C6: evaluating `checkTxs` on two new blocks. The tracker walks from the
head stub down the parent-hash chain, so the callback of the transaction mined
in block 2 is invoked before the callback of the transaction mined in block 1
— the delivery order is DECREASING block number (nonce 1 before nonce 0). -/
theorem checkTxs_invokes_in_descending_block_order :
    (TransactionTracker.checkTxs
        [⟨2, "h2", "h1", [⟨some "cB", "dB", 0, 200000, 1, 1⟩], []⟩,
         ⟨1, "h1", "h0", [⟨some "cA", "dA", 0, 200000, 1, 0⟩], []⟩]
        [⟨1, "dA", "cA", 0, 200000⟩, ⟨1, "dB", "cB", 0, 200000⟩] 0 2 "h2").invocations =
      [(⟨1, "dB", "cB", 0, 200000⟩, 1), (⟨1, "dA", "cA", 0, 200000⟩, 0)] := by
  decide

/-- Number of callback-map entries structurally equal to `k`. -/
def countKey (k : PisaTransactionIdentifier) (l : List PisaTransactionIdentifier) : Nat :=
  l.countP (fun x => x.equals k)

/-- Number of recorded invocations whose TxId equals `k`. -/
def countInv (k : PisaTransactionIdentifier) (l : List (PisaTransactionIdentifier × Nat)) : Nat :=
  l.countP (fun p => p.1.equals k)

theorem countInv_append (k : PisaTransactionIdentifier)
    (a b : List (PisaTransactionIdentifier × Nat)) :
    countInv k (a ++ b) = countInv k a + countInv k b := by
  simp [countInv, List.countP_append]

theorem countInv_const_map (k txId : PisaTransactionIdentifier) (nonce : Nat)
    (l : List PisaTransactionIdentifier) :
    countInv k (l.map (fun _ => (txId, nonce))) =
      if txId.equals k then l.length else 0 := by
  induction l with
  | nil => simp [countInv]
  | cons a l ih =>
    by_cases h : txId.equals k = true
    · simp [countInv, List.countP_cons, h] at ih ⊢
      omega
    · simp [countInv, List.countP_cons, h] at ih ⊢

theorem countKey_filter_split (k txId : PisaTransactionIdentifier)
    (l : List PisaTransactionIdentifier) :
    countKey k (l.filter (fun x => !(x.equals txId))) +
      (if txId.equals k then (l.filter (fun x => x.equals txId)).length else 0) =
      countKey k l := by
  unfold countKey
  rw [List.countP_filter]
  by_cases htk : txId = k
  · rw [if_pos ((PisaTransactionIdentifier.equals_iff _ _).mpr htk)]
    have h0 : List.countP (fun a => a.equals k && !(a.equals txId)) l = 0 := by
      rw [List.countP_eq_zero]
      intro a _
      rw [htk]
      cases h : a.equals k <;> simp [h]
    have h1 : (l.filter (fun x => x.equals txId)).length =
        List.countP (fun x => x.equals k) l := by
      rw [← List.countP_eq_length_filter]
      apply List.countP_congr
      intro x _
      rw [htk]
    rw [h0, h1, Nat.zero_add]
  · have hne : txId.equals k = false := by
      rw [Bool.eq_false_iff]
      intro hc
      exact htk ((PisaTransactionIdentifier.equals_iff _ _).mp hc)
    rw [if_neg (by simp [hne]), Nat.add_zero]
    apply List.countP_congr
    intro x _
    constructor
    · intro hx
      exact (Bool.and_eq_true _ _).mp hx |>.1
    · intro hx
      have hxk : x = k := (PisaTransactionIdentifier.equals_iff _ _).mp hx
      have hxt : x.equals txId = false := by
        rw [Bool.eq_false_iff]
        intro hc
        exact htk (((PisaTransactionIdentifier.equals_iff _ _).mp hc).symm.trans hxk)
      simp [hx, hxt]

theorem checkTxsBlock_conservation (k : PisaTransactionIdentifier) :
    ∀ (txs : List Transaction) (cbs : List PisaTransactionIdentifier),
      countKey k (checkTxsBlock cbs txs).1 + countInv k (checkTxsBlock cbs txs).2 =
        countKey k cbs := by
  intro txs
  induction txs with
  | nil => intro cbs; simp [checkTxsBlock, countInv]
  | cons tx rest ih =>
    intro cbs
    cases htx : tx.toAddr with
    | none => simp [checkTxsBlock, htx, ih]
    | some toAddr =>
      simp only [checkTxsBlock, htx]
      rw [countInv_append, countInv_const_map]
      have h1 := ih (cbs.filter
        (fun x => !(x.equals ⟨tx.chainId, tx.data, toAddr, tx.value, tx.gasLimit⟩)))
      have h2 := countKey_filter_split k
        ⟨tx.chainId, tx.data, toAddr, tx.value, tx.gasLimit⟩ cbs
      by_cases hik :
          PisaTransactionIdentifier.equals
            ⟨tx.chainId, tx.data, toAddr, tx.value, tx.gasLimit⟩ k = true <;>
        simp only [hik, if_true, if_false, ite_true, ite_false] at h2 ⊢ <;> omega

theorem checkTxsLoop_conservation (cache : List Block) (k : PisaTransactionIdentifier) :
    ∀ (fuel : Nat) (ob : Option Block) (cbs : List PisaTransactionIdentifier)
      (acc : List (PisaTransactionIdentifier × Nat)),
      countKey k (checkTxsLoop cache fuel ob cbs acc).1 +
        countInv k (checkTxsLoop cache fuel ob cbs acc).2 =
        countKey k cbs + countInv k acc := by
  intro fuel
  induction fuel with
  | zero => intro ob cbs acc; simp [checkTxsLoop]
  | succ n ih =>
    intro ob cbs acc
    cases ob with
    | none => simpa [checkTxsLoop] using ih none cbs acc
    | some b =>
      simp only [checkTxsLoop]
      have h1 := ih (getBlockStub cache b.parentHash) (checkTxsBlock cbs b.transactions).1
        (acc ++ (checkTxsBlock cbs b.transactions).2)
      have h2 := checkTxsBlock_conservation k b.transactions cbs
      rw [countInv_append] at h1
      omega

theorem checkTxs_conservation (cache : List Block) (cbs : List PisaTransactionIdentifier)
    (last bn : Nat) (bh : String) (k : PisaTransactionIdentifier) :
    countKey k (TransactionTracker.checkTxs cache cbs last bn bh).callbacks +
      countInv k (TransactionTracker.checkTxs cache cbs last bn bh).invocations =
      countKey k cbs := by
  simp only [TransactionTracker.checkTxs]
  have := checkTxsLoop_conservation cache k (bn - last) (getBlockStub cache bh) cbs []
  simpa [countInv] using this

theorem run_conservation (cache : List Block) (k : PisaTransactionIdentifier) :
    ∀ (events : List (Nat × String)) (cbs : List PisaTransactionIdentifier) (last : Nat),
      countKey k (TransactionTracker.run cache cbs last events).1 +
        countInv k (TransactionTracker.run cache cbs last events).2 = countKey k cbs := by
  intro events
  induction events with
  | nil => intro cbs last; simp [TransactionTracker.run, countInv]
  | cons e rest ih =>
    intro cbs last
    cases e with
    | mk bn bh =>
      simp only [TransactionTracker.run]
      rw [countInv_append]
      have h1 := checkTxs_conservation cache cbs last bn bh k
      have h2 := ih (TransactionTracker.checkTxs cache cbs last bn bh).callbacks
        (TransactionTracker.checkTxs cache cbs last bn bh).lastBlockNumber
      omega

/-- C7: a TxId registered once with the tracker is invoked at most once over
any sequence of head events: the callback entry is removed from the map
before being invoked, so the registration count is conserved as remaining
entries plus made invocations, and a single registration yields at most one
invocation (hence at most one `txMined` dequeue for that TxId). -/
theorem tracker_at_most_one_invocation (cache : List Block)
    (events : List (Nat × String)) (cbs : List PisaTransactionIdentifier)
    (lastBlockNumber : Nat) (k : PisaTransactionIdentifier)
    (h : countKey k cbs = 1) :
    countInv k (TransactionTracker.run cache cbs lastBlockNumber events).2 ≤ 1 ∧
      countKey k (TransactionTracker.run cache cbs lastBlockNumber events).1 +
        countInv k (TransactionTracker.run cache cbs lastBlockNumber events).2 = 1 := by
  have := run_conservation cache k events cbs lastBlockNumber
  omega

theorem tracker_at_most_one_invocation_witness :
    countInv ⟨1, "dA", "cA", 0, 200000⟩
        (TransactionTracker.run [⟨1, "h1", "h0", [⟨some "cA", "dA", 0, 200000, 1, 0⟩], []⟩]
          [⟨1, "dA", "cA", 0, 200000⟩] 0 [(1, "h1"), (1, "h1")]).2 ≤ 1 ∧
      countKey ⟨1, "dA", "cA", 0, 200000⟩
          (TransactionTracker.run [⟨1, "h1", "h0", [⟨some "cA", "dA", 0, 200000, 1, 0⟩], []⟩]
            [⟨1, "dA", "cA", 0, 200000⟩] 0 [(1, "h1"), (1, "h1")]).1 +
        countInv ⟨1, "dA", "cA", 0, 200000⟩
          (TransactionTracker.run [⟨1, "h1", "h0", [⟨some "cA", "dA", 0, 200000, 1, 0⟩], []⟩]
            [⟨1, "dA", "cA", 0, 200000⟩] 0 [(1, "h1"), (1, "h1")]).2 = 1 :=
  tracker_at_most_one_invocation [⟨1, "h1", "h0", [⟨some "cA", "dA", 0, 200000, 1, 0⟩], []⟩]
    [(1, "h1"), (1, "h1")] [⟨1, "dA", "cA", 0, 200000⟩] 0 ⟨1, "dA", "cA", 0, 200000⟩
    (by decide)

theorem attemptLoop_length_le (bump : Nat → Nat) (outcomes : Nat → Option AttemptError) :
    ∀ (fuel a g : Nat), (attemptLoop bump outcomes a g fuel).2.2.length ≤ fuel := by
  intro fuel
  induction fuel with
  | zero => intro a g; simp [attemptLoop]
  | succ n ih =>
    intro a g
    cases h : outcomes a with
    | none => simp [attemptLoop, h]
    | some e =>
      simp only [attemptLoop, h, List.length_cons]
      have := ih (a + 1) (if e = .blockThresholdReached then bump g else g)
      omega

theorem attemptLoop_length_allfail (bump : Nat → Nat) (outcomes : Nat → Option AttemptError)
    (hall : ∀ j, outcomes j ≠ none) :
    ∀ (fuel a g : Nat), (attemptLoop bump outcomes a g fuel).2.2.length = fuel := by
  intro fuel
  induction fuel with
  | zero => intro a g; simp [attemptLoop]
  | succ n ih =>
    intro a g
    cases h : outcomes a with
    | none => exact absurd h (hall a)
    | some e =>
      simp only [attemptLoop, h, List.length_cons]
      have := ih (a + 1) (if e = .blockThresholdReached then bump g else g)
      omega

theorem attemptLoop_trace_head (bump : Nat → Nat) (outcomes : Nat → Option AttemptError) :
    ∀ (fuel a g x : Nat),
      (attemptLoop bump outcomes a g fuel).2.2.get? 0 = some x → x = g := by
  intro fuel a g x
  cases fuel with
  | zero => simp [attemptLoop]
  | succ n =>
    cases h : outcomes a with
    | none =>
      simp only [attemptLoop, h, List.get?_cons_zero, Option.some.injEq]
      exact fun hx => hx.symm
    | some e =>
      simp only [attemptLoop, h, List.get?_cons_zero, Option.some.injEq]
      exact fun hx => hx.symm

theorem attemptLoop_gas_step (bump : Nat → Nat) (outcomes : Nat → Option AttemptError) :
    ∀ (fuel a g i gi gj : Nat),
      (attemptLoop bump outcomes a g fuel).2.2.get? i = some gi →
      (attemptLoop bump outcomes a g fuel).2.2.get? (i + 1) = some gj →
      gj = if outcomes (a + i) = some .blockThresholdReached then bump gi else gi := by
  intro fuel
  induction fuel with
  | zero =>
    intro a g i gi gj h1 h2
    simp [attemptLoop] at h1
  | succ n ih =>
    intro a g i gi gj h1 h2
    cases h : outcomes a with
    | none =>
      rw [show attemptLoop bump outcomes a g (n + 1) = (true, g, [g]) by
        simp [attemptLoop, h]] at h2
      simp at h2
    | some e =>
      simp only [attemptLoop, h] at h1 h2
      cases i with
      | zero =>
        rw [List.get?_cons_zero, Option.some.injEq] at h1
        rw [List.get?_cons_succ] at h2
        have hg := attemptLoop_trace_head bump outcomes n (a + 1)
          (if e = .blockThresholdReached then bump g else g) gj h2
        subst h1
        rw [Nat.add_zero, h]
        simpa using hg
      | succ i =>
        rw [List.get?_cons_succ] at h1 h2
        have := ih (a + 1) (if e = .blockThresholdReached then bump g else g) i gi gj h1 h2
        have hidx : a + 1 + i = a + (i + 1) := by omega
        rw [hidx] at this
        exact this

/-- C8 counterexample: with the doubling gas policy, two allowed attempts and
an attempt rejecting with `NoNewBlockError`, both attempts are made at gas
price 1 — the gas price is NOT bumped before the retry, although the policy
bump would have changed it. -/
theorem dedicated_responder_noNewBlock_no_bump :
    (EthereumDedicatedResponder.startResponse DoublingGasPolicy.getIncreasedGasPrice 2 1
        (fun _ => some .noNewBlock)).2.2 = [1, 1] ∧
      DoublingGasPolicy.getIncreasedGasPrice 1 ≠ 1 := by
  decide

/-- C8 amended: the dedicated responder retries failed attempts up to
`maxAttempts` in total (exactly `maxAttempts` when every attempt rejects), and
between consecutive attempts the gas price is bumped by the policy exactly
when the rejection was `BlockThresholdReachedError`; on `NoNewBlockError` (or
any other rejection) the retry keeps the gas price unchanged. -/
theorem dedicated_responder_retry_spec (bump : Nat → Nat)
    (outcomes : Nat → Option AttemptError) (maxAttempts g i gi gj : Nat) :
    ((EthereumDedicatedResponder.startResponse bump maxAttempts g outcomes).2.2.length
        ≤ maxAttempts) ∧
    ((∀ j, outcomes j ≠ none) →
      (EthereumDedicatedResponder.startResponse bump maxAttempts g outcomes).2.2.length
        = maxAttempts) ∧
    ((EthereumDedicatedResponder.startResponse bump maxAttempts g outcomes).2.2.get? i
        = some gi →
      (EthereumDedicatedResponder.startResponse bump maxAttempts g outcomes).2.2.get? (i + 1)
        = some gj →
      gj = if outcomes i = some .blockThresholdReached then bump gi else gi) := by
  refine ⟨attemptLoop_length_le bump outcomes maxAttempts 0 g, ?_, ?_⟩
  · intro hall
    exact attemptLoop_length_allfail bump outcomes hall maxAttempts 0 g
  · intro h1 h2
    have := attemptLoop_gas_step bump outcomes maxAttempts 0 g i gi gj h1 h2
    simpa using this

theorem dedicated_responder_retry_spec_witness :
    (EthereumDedicatedResponder.startResponse DoublingGasPolicy.getIncreasedGasPrice 2 1
        (fun _ => some AttemptError.reorg)).2.2.length = 2 ∧
      (1 : Nat) = if some AttemptError.reorg = some AttemptError.blockThresholdReached then
        DoublingGasPolicy.getIncreasedGasPrice 1 else 1 := by
  constructor
  · exact (dedicated_responder_retry_spec DoublingGasPolicy.getIncreasedGasPrice
      (fun _ => some AttemptError.reorg) 2 1 0 1 1).2.1 (fun j => by simp)
  · exact (dedicated_responder_retry_spec DoublingGasPolicy.getIncreasedGasPrice
      (fun _ => some AttemptError.reorg) 2 1 0 1 1).2.2 (by decide) (by decide)

end Pisa
